import Mathlib

/-!
Verification of the Magnum scene-graph transformation core.

Shallow embedding of the transformation algebra (`Math/Complex.h`,
`Math/Matrix.h`, `Math/Matrix4.h`) and the scene-graph layer
(`SceneGraph/DualQuaternionTransformation.h`, `SceneGraph/AbstractFeature.h`)
over the rational numbers.  `Float` scalars are modelled by `ℚ`; the
epsilon-based fuzzy comparisons of the source are kept, with the epsilon
value itself a fixed rational.  Parts of the repository that are referenced
but whose headers are not present (`Math/Dual.h`, `Math/DualComplex.h`,
`Math/Quaternion.h`, `Math/DualQuaternion.h`, `Math/Vector.h`,
`Math/TypeTraits.h`, `SceneGraph/Object.hpp`) are modelled from the
specification and validated against the in-tree test
`Math/Test/DualComplexTest.cpp` where it pins concrete values.
-/

namespace Magnum

/-- Modelled from the spec: `TypeTraits<Float>::epsilon()` (header
`Math/TypeTraits.h` is not in the tree).  A fixed small positive rational
standing for the single-precision comparison epsilon. -/
def epsilonF : ℚ := 1 / 100000

/-- Modelled from the spec: `TypeTraits<T>::equals(a, b)` fuzzy scalar
comparison (header `Math/TypeTraits.h` is not in the tree): equality within
numeric epsilon. -/
def equalsF (a b : ℚ) : Bool := decide (|a - b| < epsilonF)

/-- Modelled from the spec: `Implementation::isNormalizedSquared`
(`Math/TypeTraits.h` is not in the tree).  `Complex.h` documents the
condition as the squared length being within `2·ε` of one. -/
def isNormalizedSquared (x : ℚ) : Bool := decide (|x - 1| < 2 * epsilonF)

/-- Two-component vector, `Math::Vector2<T>` value part. -/
structure Vector2 where
  x : ℚ
  y : ℚ
deriving DecidableEq, Repr

/-- Complex number, from `Math/Complex.h`: real and imaginary part. -/
structure Complex where
  real : ℚ
  imaginary : ℚ
deriving DecidableEq, Repr

namespace Complex

/-- From `Math/Complex.h`: the default constructor builds the unit complex
number 1 + i0. -/
def one : Complex := ⟨1, 0⟩

/-- From `Math/Complex.h`: dot product `a0·a1 + b0·b1`. -/
def dot (a b : Complex) : ℚ := a.real * b.real + a.imaginary * b.imaginary

/-- From `Math/Complex.h`: `isNormalized()` checks the self dot product via
`Implementation::isNormalizedSquared`. -/
def isNormalized (c : Complex) : Bool := isNormalizedSquared (dot c c)

/-- From `Math/Complex.h`: complex multiplication
`(a0a1 - b0b1) + i(b0a1 + a0b1)`. -/
def mul (a b : Complex) : Complex :=
  ⟨a.real * b.real - a.imaginary * b.imaginary,
   a.imaginary * b.real + a.real * b.imaginary⟩

/-- From `Math/Complex.h`: componentwise addition. -/
def add (a b : Complex) : Complex :=
  ⟨a.real + b.real, a.imaginary + b.imaginary⟩

/-- From `Math/Complex.h`: scalar division, componentwise. -/
def divScalar (a : Complex) (t : ℚ) : Complex := ⟨a.real / t, a.imaginary / t⟩

/-- From `Math/Complex.h`: scalar multiplication, componentwise. -/
def mulScalar (a : Complex) (t : ℚ) : Complex := ⟨a.real * t, a.imaginary * t⟩

/-- From `Math/Complex.h`: conjugated complex number `a - ib`. -/
def conjugated (a : Complex) : Complex := ⟨a.real, -a.imaginary⟩

/-- From `Math/Complex.h`: `inverted()` is `conjugated()/dot()`. -/
def inverted (a : Complex) : Complex := divScalar (conjugated a) (dot a a)

/-- From `Math/Complex.h`: `transformVector(v)` is `(*this)*Complex(v)`
converted back to a vector. -/
def transformVector (c : Complex) (v : Vector2) : Vector2 :=
  let r := mul c ⟨v.x, v.y⟩
  ⟨r.real, r.imaginary⟩

end Complex

/-- Dual complex number, `Math::DualComplex<T>`: rotation part `real` and
translation-carrying part `dual`.  The header `Math/DualComplex.h` is not in
the tree; the structure is modelled from the spec and its operations are
pinned by `Math/Test/DualComplexTest.cpp`. -/
structure DualComplex where
  real : Complex
  dual : Complex
deriving DecidableEq, Repr

namespace DualComplex

/-- Modelled from the spec: the default-constructed dual complex number,
identity transformation. -/
def one : DualComplex := ⟨Complex.one, ⟨0, 0⟩⟩

/-- Modelled from the spec: `DualComplex::operator*`.  The spec's generic
dual formula `(r0·r1, r0·d1 + d0·r1)` contradicts the in-tree test
`DualComplexTest::multiply`; the product actually computed by the code is
`(r0·r1, r0·d1 + d0)`, which is validated below against the concrete
values the test asserts. -/
def mul (a b : DualComplex) : DualComplex :=
  ⟨Complex.mul a.real b.real,
   Complex.add (Complex.mul a.real b.dual) a.dual⟩

/-- Definition following the spec's words only, for comparison with `mul`:
`Composition: (r0,d0)·(r1,d1) = (r0·r1, r0·d1 + d0·r1)`. -/
def mulSpec (a b : DualComplex) : DualComplex :=
  ⟨Complex.mul a.real b.real,
   Complex.add (Complex.mul a.real b.dual) (Complex.mul a.dual b.real)⟩

/-- Modelled from the spec: `DualComplex::translation(v)`.  The in-tree test
`DualComplexTest::translation` pins the value: real part is identity and the
dual part is the plain translation vector. -/
def translation (v : Vector2) : DualComplex := ⟨Complex.one, ⟨v.x, v.y⟩⟩

/-- Modelled from the spec: the member `translation()` extraction.  The
in-tree tests `DualComplexTest::translation` and
`DualComplexTest::combinedTransformParts` pin it to returning the dual part
as a vector. -/
def translationGet (a : DualComplex) : Vector2 := ⟨a.dual.real, a.dual.imaginary⟩

/-- Definition following the spec's words only, for comparison with
`translationGet`: `translation() extraction: t = 2·dual·conjugate(real)`. -/
def translationGetSpec (a : DualComplex) : Vector2 :=
  let t := Complex.mulScalar (Complex.mul a.dual (Complex.conjugated a.real)) 2
  ⟨t.real, t.imaginary⟩

/-- Modelled from the spec: `DualComplex::isNormalized()`, checking the
squared length, which for a dual complex number is the real part's self dot
product (pinned by `DualComplexTest::lengthSquared`). -/
def isNormalized (a : DualComplex) : Bool :=
  isNormalizedSquared (Complex.dot a.real a.real)

/-- Modelled from the spec: `DualComplex::inverted()`.  Inverse of the rigid
motion `x ↦ real·x + dual`; validated below against the concrete values of
`DualComplexTest::inverted`. -/
def inverted (a : DualComplex) : DualComplex :=
  let ir := Complex.inverted a.real
  ⟨ir, Complex.mulScalar (Complex.mul ir a.dual) (-1)⟩

end DualComplex

/-- Three-component vector, `Math::Vector3<T>` value part. -/
structure Vector3 where
  x : ℚ
  y : ℚ
  z : ℚ
deriving DecidableEq, Repr

/-- Quaternion, `Math::Quaternion<T>`: vector part `(x, y, z)` and scalar
part `w`.  The header `Math/Quaternion.h` is not in the tree; modelled from
the spec (standard Hamilton product, conjugation negating the vector part). -/
structure Quaternion where
  x : ℚ
  y : ℚ
  z : ℚ
  w : ℚ
deriving DecidableEq, Repr

namespace Quaternion

/-- Modelled from the spec: identity quaternion, zero vector part and unit
scalar part. -/
def one : Quaternion := ⟨0, 0, 0, 1⟩

/-- Modelled from the spec: Hamilton product of two quaternions. -/
def mul (a b : Quaternion) : Quaternion :=
  ⟨a.w * b.x + a.x * b.w + a.y * b.z - a.z * b.y,
   a.w * b.y + a.y * b.w + a.z * b.x - a.x * b.z,
   a.w * b.z + a.z * b.w + a.x * b.y - a.y * b.x,
   a.w * b.w - a.x * b.x - a.y * b.y - a.z * b.z⟩

/-- Modelled from the spec: componentwise addition. -/
def add (a b : Quaternion) : Quaternion :=
  ⟨a.x + b.x, a.y + b.y, a.z + b.z, a.w + b.w⟩

/-- Modelled from the spec: quaternion dot product with itself and others. -/
def dot (a b : Quaternion) : ℚ := a.x * b.x + a.y * b.y + a.z * b.z + a.w * b.w

/-- Modelled from the spec: conjugated quaternion, vector part negated. -/
def conjugated (a : Quaternion) : Quaternion := ⟨-a.x, -a.y, -a.z, a.w⟩

/-- Modelled from the spec: scalar multiplication, componentwise. -/
def mulScalar (a : Quaternion) (t : ℚ) : Quaternion :=
  ⟨a.x * t, a.y * t, a.z * t, a.w * t⟩

/-- Modelled from the spec: the rotation action of a quaternion on a
vector — the vector part of `r·(v, 0)·conjugate(r)`. -/
def transformVector (r : Quaternion) (v : Vector3) : Vector3 :=
  let q := mul (mul r ⟨v.x, v.y, v.z, 0⟩) (conjugated r)
  ⟨q.x, q.y, q.z⟩

end Quaternion

/-- Dual quaternion, `Math::DualQuaternion<T>`.  The header
`Math/DualQuaternion.h` is not in the tree; modelled from the spec. -/
structure DualQuaternion where
  real : Quaternion
  dual : Quaternion
deriving DecidableEq, Repr

namespace DualQuaternion

/-- Modelled from the spec: default-constructed (identity) dual quaternion. -/
def one : DualQuaternion := ⟨Quaternion.one, ⟨0, 0, 0, 0⟩⟩

/-- Modelled from the spec: dual quaternion product, the generic dual-number
formula `(r0·r1, r0·d1 + d0·r1)` over the quaternion ring. -/
def mul (a b : DualQuaternion) : DualQuaternion :=
  ⟨Quaternion.mul a.real b.real,
   Quaternion.add (Quaternion.mul a.real b.dual) (Quaternion.mul a.dual b.real)⟩

/-- Modelled from the spec: `DualQuaternion::translation(v)`, real part
identity and dual part the pure quaternion `v/2` (the spec's encoding
`dual = ½·t·real` at `real = 1`). -/
def translation (v : Vector3) : DualQuaternion :=
  ⟨Quaternion.one, ⟨v.x / 2, v.y / 2, v.z / 2, 0⟩⟩

/-- Modelled from the spec: `DualQuaternion::rotation(angle, axis)`, a real
part built from the axis scaled by the sine of the half-angle together with
the cosine of the half-angle, and a zero dual part.  The two trigonometric
values of the half-angle are taken as arguments `s` and `c`. -/
def rotation (s c : ℚ) (axis : Vector3) : DualQuaternion :=
  ⟨⟨axis.x * s, axis.y * s, axis.z * s, c⟩, ⟨0, 0, 0, 0⟩⟩

/-- Modelled from the spec: the member `translation()` extraction
`t = 2·dual·conjugate(real)`, vector part of the product. -/
def translationGet (a : DualQuaternion) : Vector3 :=
  let t := Quaternion.mulScalar (Quaternion.mul a.dual (Quaternion.conjugated a.real)) 2
  ⟨t.x, t.y, t.z⟩

/-- Modelled from the spec: `DualQuaternion::isNormalized()`, checking that
the squared length (the real part's self dot product) is within epsilon of
one. -/
def isNormalized (a : DualQuaternion) : Bool :=
  isNormalizedSquared (Quaternion.dot a.real a.real)

/-- Modelled from the spec: `DualQuaternion::normalized()`, the value scaled
by the reciprocal of its length.  The square root of the squared length is
taken as an oracle argument since it is irrational in general. -/
def normalizedWith (sqrt : ℚ → ℚ) (a : DualQuaternion) : DualQuaternion :=
  let l := sqrt (Quaternion.dot a.real a.real)
  ⟨⟨a.real.x / l, a.real.y / l, a.real.z / l, a.real.w / l⟩,
   ⟨a.dual.x / l, a.dual.y / l, a.dual.z / l, a.dual.w / l⟩⟩

/-- Modelled from the spec: the full (quaternion) conjugate of a dual
quaternion, conjugating both parts; `invertedNormalized()` returns it for
normalized inputs. -/
def quaternionConjugated (a : DualQuaternion) : DualQuaternion :=
  ⟨Quaternion.conjugated a.real, Quaternion.conjugated a.dual⟩

end DualQuaternion

namespace SceneGraph

/-- From `SceneGraph/Types.h` usage in `DualQuaternionTransformation.h`:
the transformation type, `Global` (left-multiply, parent space) or
`Local` (right-multiply, object space). -/
inductive TransformationType where
  | Global : TransformationType
  | Local : TransformationType
deriving DecidableEq, Repr

/-- State of an `Object<BasicDualQuaternionTransformation<Float>>` as far as
the transformation-mutating interface observes it: whether the object is the
distinguished Scene root, the stored local transformation
(`_transformation`), and the dirty flag (`setDirty()` sets it; `Object.h` is
not in the tree, so the flag is the abstract observable state). -/
structure ObjectState where
  isScene : Bool
  transformation : DualQuaternion
  dirty : Bool
deriving DecidableEq, Repr

/-- Result of a mutating call: the new object state together with the list
of assertion diagnostics emitted (`CORRADE_ASSERT` prints its message and
returns the given value when the condition fails, as exercised by the
in-tree tests). -/
abbrev MutationResult := ObjectState × List String

/-- From `DualQuaternionTransformation.h` lines 151-161:
`setTransformationInternal` — setting a transformation is forbidden for the
scene; otherwise store the value and call `setDirty()`. -/
def setTransformationInternal (t : DualQuaternion) (s : ObjectState) : ObjectState :=
  if s.isScene then s
  else { s with transformation := t, dirty := true }

/-- From `DualQuaternionTransformation.h` lines 163-167: `transformInternal`
left-multiplies for `Global` and right-multiplies for `Local`, then stores
via `setTransformationInternal`. -/
def transformInternal (t : DualQuaternion) (type : TransformationType) (s : ObjectState) : ObjectState :=
  setTransformationInternal
    (match type with
     | TransformationType.Global => DualQuaternion.mul t s.transformation
     | TransformationType.Local => DualQuaternion.mul s.transformation t) s

/-- Diagnostic of the normalization assertion in `setTransformation`. -/
def setTransformationAssertMsg : String :=
  "SceneGraph::DualQuaternionTransformation::setTransformation(): the dual quaternion is not normalized"

/-- Diagnostic of the normalization assertion in `transform`. -/
def transformAssertMsg : String :=
  "SceneGraph::DualQuaternionTransformation::transform(): the dual quaternion is not normalized"

/-- From `DualQuaternionTransformation.h` lines 59-64: `setTransformation`
asserts that the dual quaternion is normalized; on failure it returns `*this`
unchanged after printing the diagnostic. -/
def setTransformation (t : DualQuaternion) (s : ObjectState) : MutationResult :=
  if DualQuaternion.isNormalized t then (setTransformationInternal t s, [])
  else (s, [setTransformationAssertMsg])

/-- From `DualQuaternionTransformation.h` lines 66-69: `resetTransformation`
stores a default-constructed (identity) dual quaternion, unchecked. -/
def resetTransformation (s : ObjectState) : MutationResult :=
  (setTransformationInternal DualQuaternion.one s, [])

/-- From `DualQuaternionTransformation.h` lines 79-81: `normalizeRotation`
stores the normalized current transformation, unchecked.  The square-root
oracle parametrizes the irrational normalization. -/
def normalizeRotation (sqrt : ℚ → ℚ) (s : ObjectState) : MutationResult :=
  (setTransformationInternal (DualQuaternion.normalizedWith sqrt s.transformation) s, [])

/-- From `DualQuaternionTransformation.h` lines 92-97: `transform` asserts
that the dual quaternion is normalized, then calls `transformInternal`. -/
def transform (t : DualQuaternion) (type : TransformationType) (s : ObjectState) : MutationResult :=
  if DualQuaternion.isNormalized t then (transformInternal t type s, [])
  else (s, [transformAssertMsg])

/-- From `DualQuaternionTransformation.h` lines 103-105: `translate` calls
`transformInternal` with `DualQuaternion::translation(vector)` directly —
no assertion on this path. -/
def translate (v : Vector3) (type : TransformationType) (s : ObjectState) : MutationResult :=
  (transformInternal (DualQuaternion.translation v) type s, [])

/-- From `DualQuaternionTransformation.h` lines 118-120: `rotate` calls
`transformInternal` with `DualQuaternion::rotation(angle, normalizedAxis)` —
no assertion on this path.  The half-angle sine and cosine are passed as
`sh` and `ch`. -/
def rotate (sh ch : ℚ) (normalizedAxis : Vector3) (type : TransformationType) (s : ObjectState) : MutationResult :=
  (transformInternal (DualQuaternion.rotation sh ch normalizedAxis) type s, [])

/-- The Scene root node's observable state: it is the scene, its local
transformation is identity and it is never dirty. -/
def sceneState : ObjectState := ⟨true, DualQuaternion.one, false⟩

/-- From `DualQuaternionTransformation.h` lines 194-196:
`Implementation::Transformation::compose(parent, child)` is
`parent*child`. -/
def compose (parent child : DualQuaternion) : DualQuaternion :=
  DualQuaternion.mul parent child

/-- From `SceneGraph/AbstractFeature.h` line 55: the `Absolute` flag bit. -/
def CachedTransformationAbsolute : ℕ := 1

/-- From `SceneGraph/AbstractFeature.h` line 62: the `InvertedAbsolute` flag
bit. -/
def CachedTransformationInvertedAbsolute : ℕ := 2

/-- Observable state of an `AbstractFeature`: the `_cachedTransformations`
bitset (`Containers::EnumSet` over `UnsignedByte`, modelled as its numeric
value). -/
structure Feature where
  cachedTransformations : ℕ
deriving DecidableEq, Repr

/-- Modelled from the spec: a newly constructed feature.  The constructor in
`AbstractFeature.hpp` is not in the tree; the spec states the default is
that neither transformation is cached, matching the zero-initialising
default constructor of `Containers::EnumSet`. -/
def newFeature : Feature := ⟨0⟩

/-- From `SceneGraph/AbstractFeature.h` lines 251-253:
`setCachedTransformations` stores the flags. -/
def setCachedTransformations (flags : ℕ) (_f : Feature) : Feature := ⟨flags⟩

/-- Modelled from the spec: during `Object::setClean()` (`Object.hpp` is not
in the tree) the feature's `clean()` hook is invoked exactly when the
`Absolute` bit is enabled in its cached-transformations set. -/
def cleanInvoked (f : Feature) : Bool :=
  decide (f.cachedTransformations &&& CachedTransformationAbsolute ≠ 0)

/-- Modelled from the spec: during `Object::setClean()` the feature's
`cleanInverted()` hook is invoked exactly when the `InvertedAbsolute` bit is
enabled in its cached-transformations set. -/
def cleanInvertedInvoked (f : Feature) : Bool :=
  decide (f.cachedTransformations &&& CachedTransformationInvertedAbsolute ≠ 0)

end SceneGraph

namespace MathMatrix

/-- Column vector of a square matrix, `Math::Vector<size, T>` value part
(the header `Math/Vector.h` is not in the tree; only indexing is needed). -/
abbrev Vec (n : ℕ) := Fin n → ℚ

/-- Square matrix in the source's column-major layout, from
`Math/Matrix.h` / `Math/RectangularMatrix.h`: `m col row`. -/
abbrev SrcMat (n : ℕ) := Fin n → Vec n

/-- Modelled from the spec: `Vector::dot`, the sum of componentwise
products (`Math/Vector.h` is not in the tree). -/
def dotV {n : ℕ} (a b : Vec n) : ℚ := ∑ i, a i * b i

/-- Modelled from the spec: `Vector::isNormalized()`, the squared length
within `2·ε` of one (`Math/Vector.h` is not in the tree; the condition is
the one `Complex.h` documents for `isNormalizedSquared`). -/
def isNormalizedV {n : ℕ} (v : Vec n) : Bool := isNormalizedSquared (dotV v v)

/-- From `Math/Matrix.h` lines 295-307: `isOrthogonal()` — every column
normalized, and for every pair of columns `i < j` the test
`dot(column i, column j) > ε` must not trigger.  The source compares the
signed dot product against epsilon without taking an absolute value. -/
def isOrthogonal {n : ℕ} (m : SrcMat n) : Bool :=
  ((List.finRange n).all fun i => isNormalizedV (m i)) &&
  ((List.finRange n).all fun i =>
    (List.finRange n).all fun j =>
      if i < j then !decide (dotV (m i) (m j) > epsilonF) else true)

/-- From `Math/Matrix4.h`: `rotationScaling()`, the upper-left 3x3 part
(the `xyz()` of the first three columns). -/
def rotationScaling (m : SrcMat 4) : SrcMat 3 :=
  fun col row => m col.castSucc row.castSucc

/-- From `Math/RectangularMatrix.h` usage in `Matrix4::isRigidTransformation`:
the bottom row compared fuzzily against `(0, 0, 0, 1)` componentwise
(vector `operator==` uses `TypeTraits::equals`). -/
def bottomRowIsAffine (m : SrcMat 4) : Bool :=
  (List.finRange 4).all fun c =>
    equalsF (m c 3) (if (c : ℕ) = 3 then 1 else 0)

/-- From `Math/Matrix4.h` lines 225-227: `isRigidTransformation()` —
the upper-left 3x3 block is orthogonal and the bottom row is
`(0, 0, 0, 1)`. -/
def isRigidTransformation (m : SrcMat 4) : Bool :=
  isOrthogonal (rotationScaling m) && bottomRowIsAffine m

/-- From `Math/Matrix.h` lines 309-318: `ij(skipCol, skipRow)`, the matrix
without the given column and row; remaining indices at or past the skipped
one shift up by one, which is exactly `Fin.succAbove`. -/
def srcIJ {n : ℕ} (m : SrcMat (n + 1)) (skipCol skipRow : Fin (n + 1)) : SrcMat n :=
  fun col row => m (skipCol.succAbove col) (skipRow.succAbove row)

/-- From `Math/Matrix.h` lines 264-290: `determinant()`, Laplace expansion
along row zero over the columns, with sign `(-1)^col`, down to the direct
base cases (which agree with the uniform recursion). -/
def srcDet : (n : ℕ) → SrcMat n → ℚ
  | 0, _ => 1
  | n + 1, m => ∑ col : Fin (n + 1), (-1 : ℚ) ^ (col : ℕ) * m col 0 * srcDet n (srcIJ m col 0)

/-- From `Math/Matrix.h` lines 320-330: `inverted()` by Cramer's rule —
`out[col][row] = (-1)^(row+col) · det(ij(row, col)) / det`. -/
def srcInverted {n : ℕ} (m : SrcMat (n + 1)) : SrcMat (n + 1) :=
  fun col row =>
    (-1 : ℚ) ^ ((row : ℕ) + (col : ℕ)) * srcDet n (srcIJ m row col) / srcDet (n + 1) m

/-- From `Math/Matrix4.h` lines 501-507: `invertedRigid()` — the rotation
block transposed, the translation column replaced by the transposed rotation
applied to the negated translation, and the affine bottom row. -/
def invertedRigid (m : SrcMat 4) : SrcMat 4 :=
  fun col row =>
    if (row : ℕ) = 3 then (if (col : ℕ) = 3 then 1 else 0)
    else if (col : ℕ) = 3 then
      -(∑ k : Fin 3, m row k.castSucc * m 3 k.castSucc)
    else m row col

/-- Bridge to Mathlib matrices: the source stores columns, so the entry at
mathematical row `i` and column `j` is `m j i`. -/
def toM {n : ℕ} (m : SrcMat n) : Matrix (Fin n) (Fin n) ℚ :=
  Matrix.of fun i j => m j i

/-- The 4x4 matrix with columns `(1,0,0,0)`, `(-1,0,0,0)`, `(0,0,1,0)` and
`(0,0,0,1)`: its first two columns are unit length but anti-parallel, so the
upper-left block is not orthogonal (and the matrix is singular). -/
def antiparallelColumnsMatrix : SrcMat 4 :=
  ![![1, 0, 0, 0], ![-1, 0, 0, 0], ![0, 0, 1, 0], ![0, 0, 0, 1]]

end MathMatrix

namespace FloatModel

/-- Scalar model with a NaN element for the release-mode sentinel analysis:
`none` stands for a quiet NaN, `some q` for an ordinary value. -/
abbrev FP := Option ℚ

/-- The quiet NaN produced by `std::numeric_limits<T>::quiet_NaN()`. -/
def nan : FP := none

/-- Lifted subtraction: NaN propagates. -/
def fsub (a b : FP) : FP :=
  match a, b with
  | some a, some b => some (a - b)
  | _, _ => none

/-- Lifted multiplication: NaN propagates. -/
def fmul (a b : FP) : FP :=
  match a, b with
  | some a, some b => some (a * b)
  | _, _ => none

/-- Lifted addition: NaN propagates. -/
def fadd (a b : FP) : FP :=
  match a, b with
  | some a, some b => some (a + b)
  | _, _ => none

/-- Lifted absolute value: NaN propagates. -/
def fabs (a : FP) : FP := a.map (fun q => |q|)

/-- Lifted strict comparison: every comparison with NaN is false. -/
def flt (a b : FP) : Bool :=
  match a, b with
  | some a, some b => decide (a < b)
  | _, _ => false

/-- Modelled from the spec: `TypeTraits::equals` over the NaN-aware scalars;
a NaN operand makes the comparison false, so a NaN value compares unequal to
itself. -/
def fequals (a b : FP) : Bool := flt (fabs (fsub a b)) (some epsilonF)

/-- Complex number over the NaN-aware scalars (`Math/Complex.h`). -/
structure ComplexF where
  real : FP
  imaginary : FP
deriving DecidableEq, Repr

/-- From `Math/Complex.h`: the dot product of the complex number with
itself. -/
def dotF (c : ComplexF) : FP :=
  fadd (fmul c.real c.real) (fmul c.imaginary c.imaginary)

/-- From `Math/Complex.h`: `isNormalized()` via `isNormalizedSquared`. -/
def isNormalizedF (c : ComplexF) : Bool :=
  flt (fabs (fsub (dotF c) (some 1))) (some (2 * epsilonF))

/-- From `Math/Complex.h`: `operator==`, componentwise
`TypeTraits::equals`. -/
def eqF (a b : ComplexF) : Bool :=
  fequals a.real b.real && fequals a.imaginary b.imaginary

/-- From `Math/Complex.h`: conjugation. -/
def conjugatedF (c : ComplexF) : ComplexF := ⟨c.real, fmul c.imaginary (some (-1))⟩

/-- From `Math/Complex.h` lines 394-399: `invertedNormalized()` — when the
assertion condition fails (and the assertion is compiled out or graceful),
the function returns the sentinel `Complex(quiet_NaN, T(0))`: only the real
component is NaN, the imaginary component is value-initialised to zero. -/
def invertedNormalizedF (c : ComplexF) : ComplexF :=
  if isNormalizedF c then conjugatedF c else ⟨nan, some 0⟩

end FloatModel

/-! ## Claim theorems -/

namespace SceneGraph


/-- C1: on a non-scene object, `transform(q, Global)` replaces the stored
transformation by `compose(q, t)` (left multiplication, parent space) and
`transform(q, Local)` by `compose(t, q)` (right multiplication, object
space), for every normalized dual quaternion `q`; `translate` and `rotate`
follow the same rule with `q` the translation, respectively rotation,
element. -/
theorem transform_translate_rotate_composition_order
    (s : ObjectState) (q : DualQuaternion) (v : Vector3) (sh ch : ℚ)
    (axis : Vector3) (hs : s.isScene = false)
    (hq : DualQuaternion.isNormalized q = true) :
    (transform q TransformationType.Global s =
      ({ s with transformation := compose q s.transformation, dirty := true }, []) ∧
     transform q TransformationType.Local s =
      ({ s with transformation := compose s.transformation q, dirty := true }, [])) ∧
    (translate v TransformationType.Global s =
      ({ s with transformation := compose (DualQuaternion.translation v) s.transformation, dirty := true }, []) ∧
     translate v TransformationType.Local s =
      ({ s with transformation := compose s.transformation (DualQuaternion.translation v), dirty := true }, [])) ∧
    (rotate sh ch axis TransformationType.Global s =
      ({ s with transformation := compose (DualQuaternion.rotation sh ch axis) s.transformation, dirty := true }, []) ∧
     rotate sh ch axis TransformationType.Local s =
      ({ s with transformation := compose s.transformation (DualQuaternion.rotation sh ch axis), dirty := true }, [])) := by
  simp [transform, translate, rotate, transformInternal, setTransformationInternal,
    compose, hs, hq]

/-- Witness for C1 at a concrete non-scene state and the identity dual
quaternion. -/
theorem transform_translate_rotate_composition_order_witness :
    (ObjectState.mk false DualQuaternion.one false).isScene = false ∧
    DualQuaternion.isNormalized DualQuaternion.one = true ∧
    transform DualQuaternion.one TransformationType.Global
        (ObjectState.mk false DualQuaternion.one false) =
      (ObjectState.mk false
        (compose DualQuaternion.one DualQuaternion.one) true, []) :=
  have hq : DualQuaternion.isNormalized DualQuaternion.one = true := by
    simp only [DualQuaternion.isNormalized, DualQuaternion.one, Quaternion.one,
      isNormalizedSquared, Quaternion.dot, epsilonF]
    norm_num
  ⟨rfl, hq,
    (transform_translate_rotate_composition_order
      (ObjectState.mk false DualQuaternion.one false) DualQuaternion.one
      ⟨0, 0, 0⟩ 0 1 ⟨1, 0, 0⟩ rfl hq).1.1⟩

/-- C2: on the Scene root, every transformation-mutating call is a silent
no-op — the state (identity local transformation, not dirty) is returned
unchanged and no diagnostic is emitted; in particular the local (and hence
absolute) transformation stays identity.  The two operations that assert
normalization are silent for normalized arguments. -/
theorem scene_mutators_are_silent_noops :
    (∀ q, DualQuaternion.isNormalized q = true →
      setTransformation q sceneState = (sceneState, [])) ∧
    resetTransformation sceneState = (sceneState, []) ∧
    (∀ sqrt, normalizeRotation sqrt sceneState = (sceneState, [])) ∧
    (∀ q type, DualQuaternion.isNormalized q = true →
      transform q type sceneState = (sceneState, [])) ∧
    (∀ v type, translate v type sceneState = (sceneState, [])) ∧
    (∀ sh ch axis type, rotate sh ch axis type sceneState = (sceneState, [])) ∧
    sceneState.transformation = DualQuaternion.one ∧
    sceneState.dirty = false := by
  refine ⟨fun q hq => ?_, ?_, fun sqrt => ?_, fun q type hq => ?_,
    fun v type => ?_, fun sh ch axis type => ?_, rfl, rfl⟩ <;>
    simp [setTransformation, resetTransformation, normalizeRotation, transform,
      translate, rotate, transformInternal, setTransformationInternal, sceneState, *]

/-- Witness for C2 at the identity dual quaternion. -/
theorem scene_mutators_are_silent_noops_witness :
    DualQuaternion.isNormalized DualQuaternion.one = true ∧
    setTransformation DualQuaternion.one sceneState =
      (sceneState, []) :=
  have hq : DualQuaternion.isNormalized DualQuaternion.one = true := by
    simp only [DualQuaternion.isNormalized, DualQuaternion.one, Quaternion.one,
      isNormalizedSquared, Quaternion.dot, epsilonF]
    norm_num
  ⟨hq, scene_mutators_are_silent_noops.1 DualQuaternion.one hq⟩

/-- C7: `setTransformation` with a non-normalized dual quaternion fails the
normalization assertion, emitting exactly its diagnostic message, and
returns the object state fully unchanged — the stored transformation keeps
its value and the dirty flag is untouched. -/
theorem setTransformation_not_normalized_is_diagnosed_noop
    (q : DualQuaternion) (s : ObjectState)
    (hq : DualQuaternion.isNormalized q = false) :
    setTransformation q s = (s, [setTransformationAssertMsg]) := by
  simp [setTransformation, hq]

/-- Witness for C7 at the zero dual quaternion, which is not normalized. -/
theorem setTransformation_not_normalized_is_diagnosed_noop_witness :
    DualQuaternion.isNormalized ⟨⟨0, 0, 0, 0⟩, ⟨0, 0, 0, 0⟩⟩ = false ∧
    setTransformation ⟨⟨0, 0, 0, 0⟩, ⟨0, 0, 0, 0⟩⟩
        (ObjectState.mk false DualQuaternion.one false) =
      (ObjectState.mk false DualQuaternion.one false,
       [setTransformationAssertMsg]) :=
  have hq : DualQuaternion.isNormalized (⟨⟨0, 0, 0, 0⟩, ⟨0, 0, 0, 0⟩⟩ : DualQuaternion) = false := by
    simp only [DualQuaternion.isNormalized, isNormalizedSquared, Quaternion.dot, epsilonF]
    norm_num
  ⟨hq, setTransformation_not_normalized_is_diagnosed_noop _ _ hq⟩

/-- C9: a newly constructed feature caches nothing — its
cached-transformations set is empty, so neither `clean()` nor
`cleanInverted()` is invoked for it during cleaning — and
`setCachedTransformations(flags)` makes `cachedTransformations()` return
exactly `flags`. -/
theorem feature_caching_default_and_setter :
    newFeature.cachedTransformations = 0 ∧
    cleanInvoked newFeature = false ∧
    cleanInvertedInvoked newFeature = false ∧
    (∀ flags f, (setCachedTransformations flags f).cachedTransformations = flags) := by
  refine ⟨rfl, ?_, ?_, fun flags f => rfl⟩ <;> decide

/-- C10: `translate` never fails a normalization assertion — it emits no
diagnostic for any vector, type and current state (normalized or not) —
and on a non-scene object it always replaces the stored transformation by
the composition with the translation element and marks the object dirty. -/
theorem translate_never_asserts_and_composes
    (v : Vector3) (type : TransformationType) (s : ObjectState) :
    (translate v type s).2 = [] ∧
    (s.isScene = false →
      translate v type s =
        ({ s with
            transformation :=
              match type with
              | TransformationType.Global =>
                  compose (DualQuaternion.translation v) s.transformation
              | TransformationType.Local =>
                  compose s.transformation (DualQuaternion.translation v),
            dirty := true }, [])) := by
  refine ⟨rfl, fun hs => ?_⟩
  cases type <;>
    simp [translate, transformInternal, setTransformationInternal, compose, hs]

/-- Witness for C10 at a concrete non-scene state holding a non-normalized
transformation. -/
theorem translate_never_asserts_and_composes_witness :
    (ObjectState.mk false ⟨⟨0, 0, 0, 0⟩, ⟨0, 0, 0, 0⟩⟩ false).isScene = false ∧
    translate ⟨1, 2, 3⟩ TransformationType.Global
        (ObjectState.mk false ⟨⟨0, 0, 0, 0⟩, ⟨0, 0, 0, 0⟩⟩ false) =
      (ObjectState.mk false
        (compose (DualQuaternion.translation ⟨1, 2, 3⟩)
          ⟨⟨0, 0, 0, 0⟩, ⟨0, 0, 0, 0⟩⟩) true, []) :=
  ⟨rfl,
    (translate_never_asserts_and_composes ⟨1, 2, 3⟩ TransformationType.Global
      (ObjectState.mk false ⟨⟨0, 0, 0, 0⟩, ⟨0, 0, 0, 0⟩⟩ false)).2 rfl⟩

end SceneGraph

/-- C4 counterexample: at the exact input of the in-tree test
`DualComplexTest::multiply`, the code's dual complex product (pinned by the
test to `({12, 15.25}, {1.75, -9})`) differs from the claimed formula
`(r0·r1, r0·d1 + d0·r1)`, which yields a different dual part. -/
theorem dualcomplex_multiply_formula_counterexample :
    DualComplex.mul ⟨⟨-3/2, 2⟩, ⟨3, -13/2⟩⟩ ⟨⟨2, -15/2⟩, ⟨-1/2, 1⟩⟩ =
      ⟨⟨12, 61/4⟩, ⟨7/4, -9⟩⟩ ∧
    DualComplex.mulSpec ⟨⟨-3/2, 2⟩, ⟨3, -13/2⟩⟩ ⟨⟨2, -15/2⟩, ⟨-1/2, 1⟩⟩ ≠
      ⟨⟨12, 61/4⟩, ⟨7/4, -9⟩⟩ := by
  constructor
  · simp only [DualComplex.mul, Complex.mul, Complex.add]
    norm_num
  · simp only [DualComplex.mulSpec, Complex.mul, Complex.add, ne_eq,
      DualComplex.mk.injEq, Complex.mk.injEq]
    norm_num

/-- C4 (amended): the dual quaternion product is the generic dual-number
formula `(r0·r1, r0·d1 + d0·r1)`, while the dual complex product is
`(r0·r1, r0·d1 + d0)` — the left dual part enters unrotated; the latter is
exactly the value the in-tree test `DualComplexTest::multiply` asserts. -/
theorem dual_product_componentwise_formulas
    (r0 d0 r1 d1 : Complex) (R0 D0 R1 D1 : Quaternion) :
    DualComplex.mul ⟨r0, d0⟩ ⟨r1, d1⟩ =
      ⟨Complex.mul r0 r1, Complex.add (Complex.mul r0 d1) d0⟩ ∧
    DualQuaternion.mul ⟨R0, D0⟩ ⟨R1, D1⟩ =
      ⟨Quaternion.mul R0 R1,
       Quaternion.add (Quaternion.mul R0 D1) (Quaternion.mul D0 R1)⟩ ∧
    DualComplex.mul ⟨⟨-3/2, 2⟩, ⟨3, -13/2⟩⟩ ⟨⟨2, -15/2⟩, ⟨-1/2, 1⟩⟩ =
      ⟨⟨12, 61/4⟩, ⟨7/4, -9⟩⟩ :=
  ⟨rfl, rfl, dualcomplex_multiply_formula_counterexample.1⟩

/-- C5 counterexample: per the in-tree test `DualComplexTest::translation`,
`DualComplex::translation((1.5, -3.5))` stores the translation vector
directly in the dual part — not `½·t·real` — and the spec's extraction
`2·dual·conjugate(real)` does not return the stored vector, while the
actual `translation()` does. -/
theorem dualcomplex_translation_encoding_counterexample :
    (DualComplex.translation ⟨3/2, -7/2⟩).dual ≠
      Complex.mulScalar
        (Complex.mul ⟨3/2, -7/2⟩ (DualComplex.translation ⟨3/2, -7/2⟩).real) (1/2) ∧
    DualComplex.translationGetSpec (DualComplex.translation ⟨3/2, -7/2⟩) ≠
      ⟨3/2, -7/2⟩ ∧
    DualComplex.translationGet (DualComplex.translation ⟨3/2, -7/2⟩) =
      ⟨3/2, -7/2⟩ := by
  refine ⟨?_, ?_, rfl⟩
  · simp only [DualComplex.translation, Complex.one, Complex.mul,
      Complex.mulScalar, ne_eq, Complex.mk.injEq]
    norm_num
  · simp only [DualComplex.translationGetSpec, DualComplex.translation,
      Complex.one, Complex.conjugated, Complex.mul, Complex.mulScalar, ne_eq,
      Vector2.mk.injEq]
    norm_num

/-- C5 (amended): for dual quaternions the dual part encodes the
translation as `½·t·real` and `translation()` extracts it as
`2·dual·conjugate(real)`; for dual complexes the dual part stores the
translation vector directly and `translation()` returns the dual part.
In both algebras, a rotation composed with a translation yields a value
whose extracted translation is the rotated vector. -/
theorem translation_encoding_and_extraction :
    (∀ v : Vector3, (DualQuaternion.translation v).dual =
      Quaternion.mulScalar
        (Quaternion.mul ⟨v.x, v.y, v.z, 0⟩ (DualQuaternion.translation v).real) (1/2)) ∧
    (∀ (r : Quaternion) (t : Vector3), Quaternion.dot r r = 1 →
      DualQuaternion.translationGet
        ⟨r, Quaternion.mulScalar (Quaternion.mul ⟨t.x, t.y, t.z, 0⟩ r) (1/2)⟩ = t) ∧
    (∀ (r : Quaternion) (t : Vector3),
      DualQuaternion.translationGet
        (DualQuaternion.mul ⟨r, ⟨0, 0, 0, 0⟩⟩ (DualQuaternion.translation t)) =
      Quaternion.transformVector r t) ∧
    (∀ v : Vector2, (DualComplex.translation v).dual = ⟨v.x, v.y⟩ ∧
      DualComplex.translationGet (DualComplex.translation v) = v) ∧
    (∀ (r : Complex) (t : Vector2),
      DualComplex.translationGet
        (DualComplex.mul ⟨r, ⟨0, 0⟩⟩ (DualComplex.translation t)) =
      Complex.transformVector r t) := by
  refine ⟨fun v => ?_, fun r t h => ?_, fun r t => ?_, fun v => ⟨rfl, rfl⟩, fun r t => ?_⟩
  · simp only [DualQuaternion.translation, Quaternion.one, Quaternion.mul,
      Quaternion.mulScalar, Quaternion.mk.injEq]
    refine ⟨by ring, by ring, by ring, by ring⟩
  · obtain ⟨rx, ry, rz, rw⟩ := r
    obtain ⟨tx, ty, tz⟩ := t
    simp only [Quaternion.dot] at h
    simp only [DualQuaternion.translationGet, Quaternion.mul,
      Quaternion.mulScalar, Quaternion.conjugated, Vector3.mk.injEq]
    refine ⟨by linear_combination tx * h, by linear_combination ty * h,
      by linear_combination tz * h⟩
  · simp only [DualQuaternion.translationGet, DualQuaternion.mul,
      DualQuaternion.translation, Quaternion.one, Quaternion.mul,
      Quaternion.add, Quaternion.mulScalar, Quaternion.conjugated,
      Quaternion.transformVector, Vector3.mk.injEq]
    refine ⟨by ring, by ring, by ring⟩
  · simp only [DualComplex.translationGet, DualComplex.mul,
      DualComplex.translation, Complex.one, Complex.mul, Complex.add,
      Complex.transformVector, Vector2.mk.injEq]
    refine ⟨by ring, by ring⟩

/-- Witness for C5 (amended) at the identity rotation and the vector
`(1, 2, 3)`. -/
theorem translation_encoding_and_extraction_witness :
    Quaternion.dot ⟨0, 0, 0, 1⟩ ⟨0, 0, 0, 1⟩ = 1 ∧
    DualQuaternion.translationGet
      ⟨⟨0, 0, 0, 1⟩,
       Quaternion.mulScalar (Quaternion.mul ⟨1, 2, 3, 0⟩ ⟨0, 0, 0, 1⟩) (1/2)⟩ =
      ⟨1, 2, 3⟩ :=
  have h : Quaternion.dot ⟨0, 0, 0, 1⟩ ⟨0, 0, 0, 1⟩ = 1 := by
    simp [Quaternion.dot]
  ⟨h, translation_encoding_and_extraction.2.1 ⟨0, 0, 0, 1⟩ ⟨1, 2, 3⟩ h⟩

/-- C8 counterexample: at the non-normalized input `(-1, -2.5)` of the
in-tree test `DualComplexTest::invertedNormalized`, the sentinel returned by
`Complex::invertedNormalized()` has a zero (value-initialised) imaginary
component, not a NaN one — only the real component is NaN — though the
result does compare unequal to itself. -/
theorem invertedNormalized_sentinel_counterexample :
    (FloatModel.invertedNormalizedF ⟨some (-1), some (-5/2)⟩).imaginary = some 0 ∧
    (FloatModel.invertedNormalizedF ⟨some (-1), some (-5/2)⟩).imaginary ≠ FloatModel.nan ∧
    FloatModel.eqF (FloatModel.invertedNormalizedF ⟨some (-1), some (-5/2)⟩)
      (FloatModel.invertedNormalizedF ⟨some (-1), some (-5/2)⟩) = false := by
  have hn : FloatModel.isNormalizedF ⟨some (-1), some (-5/2)⟩ = false := by
    simp only [FloatModel.isNormalizedF, FloatModel.dotF, FloatModel.fmul,
      FloatModel.fadd, FloatModel.fsub, FloatModel.fabs, FloatModel.flt,
      Option.map, epsilonF]
    norm_num [abs_of_nonneg]
  refine ⟨?_, ?_, ?_⟩ <;>
    simp [FloatModel.invertedNormalizedF, hn, FloatModel.nan, FloatModel.eqF,
      FloatModel.fequals, FloatModel.fsub, FloatModel.fabs, FloatModel.flt]

/-- C8 (amended): on any input failing the normalization check,
`invertedNormalized()` returns the sentinel whose real component is NaN and
whose imaginary component is value-initialised to zero; the NaN real
component makes the result compare unequal to itself, so it cannot be
mistaken for a valid value. -/
theorem invertedNormalized_not_normalized_returns_nan_sentinel
    (c : FloatModel.ComplexF) (h : FloatModel.isNormalizedF c = false) :
    FloatModel.invertedNormalizedF c = ⟨FloatModel.nan, some 0⟩ ∧
    FloatModel.eqF (FloatModel.invertedNormalizedF c)
      (FloatModel.invertedNormalizedF c) = false := by
  refine ⟨?_, ?_⟩ <;>
    simp [FloatModel.invertedNormalizedF, h, FloatModel.nan, FloatModel.eqF,
      FloatModel.fequals, FloatModel.fsub, FloatModel.fabs, FloatModel.flt]

namespace MathMatrix

/-- Evaluation helper: the index list of a three-column loop. -/
lemma finRange_three : List.finRange 3 = [0, 1, 2] := by decide

/-- Evaluation helper: the index list of a four-column loop. -/
lemma finRange_four : List.finRange 4 = [0, 1, 2, 3] := by decide

/-- Evaluation helper for `Fin.castSucc` at index zero. -/
lemma castSucc_zero_val : (Fin.castSucc (0 : Fin 3)) = (0 : Fin 4) := rfl

/-- Evaluation helper for `Fin.castSucc` at index one. -/
lemma castSucc_one_val : (Fin.castSucc (1 : Fin 3)) = (1 : Fin 4) := rfl

/-- Evaluation helper for `Fin.castSucc` at index two. -/
lemma castSucc_two_val : (Fin.castSucc (2 : Fin 3)) = (2 : Fin 4) := rfl

/-- Evaluation helper for the natural value of the index zero. -/
lemma val_zero_four : (((0 : Fin 4)) : ℕ) = 0 := rfl

/-- Evaluation helper for the natural value of the index one. -/
lemma val_one_four : (((1 : Fin 4)) : ℕ) = 1 := rfl

/-- Evaluation helper for the natural value of the index two. -/
lemma val_two_four : (((2 : Fin 4)) : ℕ) = 2 := rfl

/-- Evaluation helper for the natural value of the index three. -/
lemma val_three_four : (((3 : Fin 4)) : ℕ) = 3 := rfl

/-- C3: evaluation of the code at the failing input — the matrix whose
first two columns are anti-parallel passes `isRigidTransformation` (its
bottom row is `(0,0,0,1)` and `isOrthogonal` accepts it because the signed
dot-product test `dot > ε` misses large negative dot products), yet the
first two columns of the upper-left block have dot product `-1`, nowhere
near perpendicular within epsilon, contradicting `isOrthogonal`'s own
documentation (a matrix is orthogonal when its transpose is its inverse —
this matrix is singular). -/
theorem isRigidTransformation_accepts_antiparallel_columns :
    isRigidTransformation antiparallelColumnsMatrix = true ∧
    dotV (rotationScaling antiparallelColumnsMatrix 0)
      (rotationScaling antiparallelColumnsMatrix 1) = -1 ∧
    ¬(|dotV (rotationScaling antiparallelColumnsMatrix 0)
        (rotationScaling antiparallelColumnsMatrix 1)| ≤ epsilonF) := by
  have hdot : dotV (rotationScaling antiparallelColumnsMatrix 0)
      (rotationScaling antiparallelColumnsMatrix 1) = -1 := by
    simp only [dotV, rotationScaling, Fin.sum_univ_three, castSucc_zero_val,
      castSucc_one_val, castSucc_two_val, antiparallelColumnsMatrix,
      Matrix.cons_val_zero, Matrix.cons_val_one, Matrix.cons_val_two,
      Matrix.cons_val_three, Matrix.head_cons, Matrix.tail_cons]
    norm_num
  refine ⟨?_, hdot, ?_⟩
  · simp only [isRigidTransformation, isOrthogonal, bottomRowIsAffine,
      finRange_three, finRange_four, List.all_cons, List.all_nil,
      rotationScaling, isNormalizedV, dotV, equalsF, isNormalizedSquared,
      epsilonF, Fin.sum_univ_three, castSucc_zero_val, castSucc_one_val,
      castSucc_two_val, val_zero_four, val_one_four, val_two_four,
      val_three_four, antiparallelColumnsMatrix,
      Matrix.cons_val_zero, Matrix.cons_val_one, Matrix.cons_val_two,
      Matrix.cons_val_three, Matrix.head_cons, Matrix.tail_cons]
    norm_num
  · rw [hdot]
    simp only [epsilonF]
    norm_num

/-- The source's minor-removal `ij` is Mathlib's `submatrix` along
`Fin.succAbove`, transposed through the column-major bridge. -/
lemma toM_srcIJ {n : ℕ} (m : SrcMat (n + 1)) (sc sr : Fin (n + 1)) :
    toM (srcIJ m sc sr) = (toM m).submatrix sr.succAbove sc.succAbove := rfl

/-- The source's row-zero Laplace expansion computes the mathematical
determinant. -/
lemma srcDet_eq_det : ∀ (n : ℕ) (m : SrcMat n), srcDet n m = (toM m).det := by
  intro n
  induction n with
  | zero => intro m; rw [srcDet, Matrix.det_fin_zero]
  | succ k ih =>
    intro m
    rw [srcDet, Matrix.det_succ_row_zero]
    refine Finset.sum_congr rfl fun j _ => ?_
    rw [ih (srcIJ m j 0), toM_srcIJ, Fin.succAbove_zero]
    rfl

/-- The source's Cramer-rule `inverted()` is the adjugate divided by the
determinant. -/
lemma toM_srcInverted {n : ℕ} (m : SrcMat (n + 1)) :
    toM (srcInverted m) = (srcDet (n + 1) m)⁻¹ • Matrix.adjugate (toM m) := by
  ext i j
  show srcInverted m j i = _
  rw [srcInverted, srcDet_eq_det n (srcIJ m i j), toM_srcIJ,
    Matrix.smul_apply, Matrix.adjugate_fin_succ_eq_det_submatrix,
    srcDet_eq_det (n + 1) m, smul_eq_mul]
  rw [Nat.add_comm (i : ℕ) (j : ℕ)]
  ring

/-- Cramer-rule inversion: `m * inverted(m)` is the identity whenever the
determinant is nonzero. -/
lemma srcInverted_mul_eq_one {n : ℕ} (m : SrcMat (n + 1))
    (h : srcDet (n + 1) m ≠ 0) : toM m * toM (srcInverted m) = 1 := by
  rw [toM_srcInverted, Matrix.mul_smul, Matrix.mul_adjugate,
    ← srcDet_eq_det (n + 1) m, smul_smul, inv_mul_cancel₀ h, one_smul]

/-- The last index of `Fin 4` as a numeral. -/
lemma last_eq_three : Fin.last 3 = (3 : Fin 4) := rfl

/-- A cast-up index of `Fin 3` never has the bottom-row value three. -/
lemma castSucc_val_ne_three (k : Fin 3) : ((k.castSucc : Fin 4) : ℕ) ≠ 3 :=
  Nat.ne_of_lt k.isLt

/-- Entry of `invertedRigid` in the rotation block: the transposed rotation
entry of the input. -/
lemma invertedRigid_app_rot (m : SrcMat 4) (j : Fin 4) (k : Fin 3)
    (hj : (j : ℕ) ≠ 3) : invertedRigid m j k.castSucc = m k.castSucc j := by
  simp only [invertedRigid]
  rw [if_neg (castSucc_val_ne_three k), if_neg hj]

/-- Entry of `invertedRigid` in the translation column: the transposed
rotation applied to the negated translation. -/
lemma invertedRigid_app_trans (m : SrcMat 4) (k : Fin 3) :
    invertedRigid m 3 k.castSucc =
      -(∑ l : Fin 3, m k.castSucc l.castSucc * m 3 l.castSucc) := by
  simp only [invertedRigid]
  rw [if_neg (castSucc_val_ne_three k), if_pos val_three_four]

/-- Entry of `invertedRigid` in the bottom row: the affine row
`(0, 0, 0, 1)`. -/
lemma invertedRigid_app_bottom (m : SrcMat 4) (j : Fin 4) :
    invertedRigid m j 3 = (if (j : ℕ) = 3 then 1 else 0) := by
  simp only [invertedRigid]
  rw [if_pos val_three_four]

/-- Rigid inversion: for a matrix with exactly orthonormal rotation columns
and an exact affine bottom row, `m * invertedRigid(m)` is the identity. -/
lemma invertedRigid_mul_eq_one (m : SrcMat 4)
    (hO : ∀ i j : Fin 3, dotV (rotationScaling m i) (rotationScaling m j) =
      (if i = j then 1 else 0))
    (hB : ∀ c : Fin 4, m c 3 = (if (c : ℕ) = 3 then 1 else 0)) :
    toM m * toM (invertedRigid m) = 1 := by
  have hT : (toM (rotationScaling m)).transpose * toM (rotationScaling m) = 1 := by
    ext i j
    rw [Matrix.mul_apply, Matrix.one_apply]
    have h := hO i j
    rw [dotV] at h
    simpa [Matrix.transpose_apply, toM] using h
  have hRR := Matrix.mul_eq_one_comm.mp hT
  have hRRe : ∀ i j : Fin 3,
      (∑ k : Fin 3, m k.castSucc i.castSucc * m k.castSucc j.castSucc) =
      (if i = j then 1 else 0) := by
    intro i j
    have h := congrFun (congrFun hRR i) j
    rw [Matrix.mul_apply, Matrix.one_apply] at h
    simpa [Matrix.transpose_apply, toM, rotationScaling] using h
  have hBrow : ∀ k : Fin 3, m k.castSucc 3 = 0 := by
    intro k
    rw [hB]
    exact if_neg (castSucc_val_ne_three k)
  have h33 : m 3 3 = 1 := by rw [hB]; simp [val_three_four]
  ext i j
  rw [Matrix.mul_apply, Matrix.one_apply]
  simp only [toM, Matrix.of_apply]
  rw [Fin.sum_univ_castSucc]
  induction j using Fin.lastCases with
  | last =>
    induction i using Fin.lastCases with
    | last =>
      simp only [last_eq_three, invertedRigid_app_trans, invertedRigid_app_bottom,
        val_three_four, hBrow, h33, zero_mul, Finset.sum_const_zero, zero_add]
      norm_num
    | cast ic =>
      have hne : (ic.castSucc : Fin 4) ≠ 3 := by
        have := (Fin.castSucc_lt_last ic).ne
        simpa [last_eq_three] using this
      simp only [last_eq_three, invertedRigid_app_trans, invertedRigid_app_bottom,
        val_three_four, if_pos, if_neg hne, eq_self_iff_true, if_true]
      simp only [Finset.mul_sum, mul_neg, Finset.sum_neg_distrib, ← mul_assoc]
      rw [Finset.sum_comm]
      simp only [← Finset.sum_mul, hRRe]
      simp only [ite_mul, one_mul, zero_mul, Finset.sum_ite_eq, Finset.mem_univ,
        if_true]
      ring
  | cast jc =>
    have hj : ((jc.castSucc : Fin 4) : ℕ) ≠ 3 := castSucc_val_ne_three jc
    induction i using Fin.lastCases with
    | last =>
      have hne : (3 : Fin 4) ≠ jc.castSucc := by
        have := (Fin.castSucc_lt_last jc).ne'
        simpa [last_eq_three] using this
      simp only [last_eq_three, invertedRigid_app_rot _ _ _ hj,
        invertedRigid_app_bottom, if_neg hj, hBrow, zero_mul,
        Finset.sum_const_zero, zero_add, mul_zero, if_neg hne]
    | cast ic =>
      have hic : (ic.castSucc : Fin 4) ≠ 3 := by
        have := (Fin.castSucc_lt_last ic).ne
        simpa [last_eq_three] using this
      simp only [last_eq_three, invertedRigid_app_rot _ _ _ hj,
        invertedRigid_app_bottom, if_neg hj, mul_zero, add_zero, hRRe,
        Fin.castSucc_inj]

/-- C6: composing with the computed inverse yields the identity in every
representation — complex `inverted()` (adjugate over squared length) for
nonzero inputs, complex `invertedNormalized` (conjugation) for unit inputs,
quaternion conjugation for unit quaternions, dual complex `inverted()` for
invertible rotation parts, the general matrix `inverted()` by
adjugate/determinant whenever the determinant is nonzero, and
`Matrix4::invertedRigid()` for rigid matrices (orthonormal rotation block,
affine bottom row). -/
theorem compose_with_inverse_is_identity :
    (∀ c : Complex, Complex.dot c c ≠ 0 →
      Complex.mul c (Complex.inverted c) = Complex.one) ∧
    (∀ c : Complex, Complex.dot c c = 1 →
      Complex.mul c (Complex.conjugated c) = Complex.one) ∧
    (∀ q : Quaternion, Quaternion.dot q q = 1 →
      Quaternion.mul q (Quaternion.conjugated q) = Quaternion.one) ∧
    (∀ a : DualComplex, Complex.dot a.real a.real ≠ 0 →
      DualComplex.mul a (DualComplex.inverted a) = DualComplex.one) ∧
    (∀ (n : ℕ) (m : SrcMat (n + 1)), srcDet (n + 1) m ≠ 0 →
      toM m * toM (srcInverted m) = 1) ∧
    (∀ m : SrcMat 4,
      (∀ i j : Fin 3, dotV (rotationScaling m i) (rotationScaling m j) =
        (if i = j then 1 else 0)) →
      (∀ c : Fin 4, m c 3 = (if (c : ℕ) = 3 then 1 else 0)) →
      toM m * toM (invertedRigid m) = 1) := by
  refine ⟨fun c h => ?_, fun c h => ?_, fun q h => ?_, fun a h => ?_,
    fun n m h => srcInverted_mul_eq_one m h,
    fun m hO hB => invertedRigid_mul_eq_one m hO hB⟩
  · obtain ⟨x, y⟩ := c
    simp only [Complex.dot] at h
    simp only [Complex.mul, Complex.inverted, Complex.conjugated,
      Complex.divScalar, Complex.dot, Complex.one, Complex.mk.injEq]
    refine ⟨by field_simp, by field_simp; ring⟩
  · obtain ⟨x, y⟩ := c
    simp only [Complex.dot] at h
    simp only [Complex.mul, Complex.conjugated, Complex.one, Complex.mk.injEq]
    exact ⟨by linear_combination h, by ring⟩
  · obtain ⟨x, y, z, w⟩ := q
    simp only [Quaternion.dot] at h
    simp only [Quaternion.mul, Quaternion.conjugated, Quaternion.one,
      Quaternion.mk.injEq]
    refine ⟨by ring, by ring, by ring, by linear_combination h⟩
  · obtain ⟨⟨x, y⟩, ⟨dx, dy⟩⟩ := a
    simp only [Complex.dot] at h
    simp only [DualComplex.mul, DualComplex.inverted, DualComplex.one,
      Complex.mul, Complex.add, Complex.inverted, Complex.conjugated,
      Complex.divScalar, Complex.mulScalar, Complex.dot, Complex.one,
      DualComplex.mk.injEq, Complex.mk.injEq]
    refine ⟨⟨by field_simp, by field_simp; ring⟩, by field_simp; ring,
      by field_simp; ring⟩

/-- Witness for C6 at a concrete nonzero complex number and a concrete
invertible one-by-one matrix. -/
theorem compose_with_inverse_is_identity_witness :
    Complex.dot ⟨3, 4⟩ ⟨3, 4⟩ ≠ 0 ∧
    Complex.mul ⟨3, 4⟩ (Complex.inverted ⟨3, 4⟩) = Complex.one ∧
    srcDet 1 (![![2]] : SrcMat 1) ≠ 0 ∧
    toM (![![2]] : SrcMat 1) * toM (srcInverted (![![2]] : SrcMat 1)) = 1 :=
  have h1 : Complex.dot ⟨3, 4⟩ ⟨3, 4⟩ ≠ 0 := by
    simp only [Complex.dot]
    norm_num
  have h2 : srcDet 1 (![![2]] : SrcMat 1) ≠ 0 := by
    simp only [srcDet, Fin.sum_univ_one, Matrix.cons_val_zero, Fin.val_zero,
      pow_zero, one_mul, mul_one]
    norm_num
  ⟨h1, compose_with_inverse_is_identity.1 ⟨3, 4⟩ h1, h2,
    compose_with_inverse_is_identity.2.2.2.2.1 0 (![![2]] : SrcMat 1) h2⟩

end MathMatrix

/-- Witness for C8 (amended) at the test's concrete non-normalized input. -/
theorem invertedNormalized_not_normalized_returns_nan_sentinel_witness :
    FloatModel.isNormalizedF ⟨some (-1), some (-5/2)⟩ = false ∧
    FloatModel.invertedNormalizedF ⟨some (-1), some (-5/2)⟩ =
      ⟨FloatModel.nan, some 0⟩ :=
  have hn : FloatModel.isNormalizedF ⟨some (-1), some (-5/2)⟩ = false := by
    simp only [FloatModel.isNormalizedF, FloatModel.dotF, FloatModel.fmul,
      FloatModel.fadd, FloatModel.fsub, FloatModel.fabs, FloatModel.flt,
      Option.map, epsilonF]
    norm_num [abs_of_nonneg]
  ⟨hn, (invertedNormalized_not_normalized_returns_nan_sentinel _ hn).1⟩

end Magnum
